import Mathlib

/-!
Verification development for the chunkserver pre-allocated file pool
(`src/chunkserver/datastore/file_pool.cpp`).

The in-memory pool state (the two free lists, the counters of
`FilePoolState`, the monotone file-number counter and the format
statistics) is embedded as a Lean structure, and every operation that
mutates it — the startup scan, a format-worker push, a clean-worker
promotion, a `GetChunk` pop and a `RecycleFile` push — is a pure function
on that structure, transliterated from the source.  The file-system calls
(open/write/fsync/rename/...) are external collaborators; each embedded
operation receives their integer results as explicit parameters, exactly
in the order and with the sign conventions the source checks them.
-/

/-- Counters of the pool, mirroring the C++ `FilePoolState` struct.
`uint32_t`/`uint64_t` fields are modelled as `Nat`. -/
structure FilePoolState where
  chunkSize : Nat
  metaPageSize : Nat
  blockSize : Nat
  chunkNum : Nat
  dirtyChunksLeft : Nat
  cleanChunksLeft : Nat
  preallocatedChunksLeft : Nat
deriving Repr, DecidableEq

/-- Format statistics, mirroring the C++ `ChunkFormatStat` struct. -/
structure ChunkFormatStat where
  preAllocateNum : Nat
  allocateChunkNum : Nat
  isWrong : Bool
deriving Repr, DecidableEq

/-- In-memory state of a `FilePool` object: the two free lists
(`std::vector<uint64_t> dirtyChunks_, cleanChunks_`, back = tail), the
atomic file-number counter `currentmaxfilenum_`, the `currentState_`
counters and the `formatStat_`.  `formatOffset`/`formatStarted` record the
`offset` local of `FormatWorker` (the value `currentmaxfilenum_` had when
the worker fetched-and-added `preAllocateNum`) and whether that fetch has
happened; `handedOut` is a ghost list of every file number popped out of
the lists by `GetChunk` (the numbers the pool hands to `GetFile`). -/
structure FilePool where
  dirtyChunks : List Nat
  cleanChunks : List Nat
  currentmaxfilenum : Nat
  currentState : FilePoolState
  formatStat : ChunkFormatStat
  formatOffset : Nat
  formatStarted : Bool
  handedOut : List Nat
deriving Repr, DecidableEq

/-- Pop the back of `dirtyChunks_`, decrementing `dirtyChunksLeft` and
`preallocatedChunksLeft` (the `pop` lambda of `GetChunk` and the `popBack`
lambda of `CleaningChunk`; both only run it on a non-empty vector). -/
def popDirty (s : FilePool) : FilePool :=
  { s with
    dirtyChunks := s.dirtyChunks.dropLast
    currentState := { s.currentState with
      dirtyChunksLeft := s.currentState.dirtyChunksLeft - 1
      preallocatedChunksLeft := s.currentState.preallocatedChunksLeft - 1 } }

/-- Pop the back of `cleanChunks_`, decrementing `cleanChunksLeft` and
`preallocatedChunksLeft`. -/
def popClean (s : FilePool) : FilePool :=
  { s with
    cleanChunks := s.cleanChunks.dropLast
    currentState := { s.currentState with
      cleanChunksLeft := s.currentState.cleanChunksLeft - 1
      preallocatedChunksLeft := s.currentState.preallocatedChunksLeft - 1 } }

/-- Push a chunk id onto `dirtyChunks_`, incrementing `dirtyChunksLeft`
and `preallocatedChunksLeft` (the `pushBack` lambda of `CleaningChunk`). -/
def pushDirty (id : Nat) (s : FilePool) : FilePool :=
  { s with
    dirtyChunks := s.dirtyChunks ++ [id]
    currentState := { s.currentState with
      dirtyChunksLeft := s.currentState.dirtyChunksLeft + 1
      preallocatedChunksLeft := s.currentState.preallocatedChunksLeft + 1 } }

/-- Push a chunk id onto `cleanChunks_`, incrementing `cleanChunksLeft`
and `preallocatedChunksLeft`. -/
def pushClean (id : Nat) (s : FilePool) : FilePool :=
  { s with
    cleanChunks := s.cleanChunks ++ [id]
    currentState := { s.currentState with
      cleanChunksLeft := s.currentState.cleanChunksLeft + 1
      preallocatedChunksLeft := s.currentState.preallocatedChunksLeft + 1 } }

/-- Result of `FilePool::GetChunk`: the returned `int`, the out-parameters
`*chunkid` and `*isCleaned`, whether `CleanChunk(id, true)` was invoked,
and the pool state after the call. -/
structure GetChunkResult where
  ret : Int
  chunkid : Nat
  isCleaned : Bool
  cleanCalled : Bool
  state : FilePool
deriving Repr, DecidableEq

/-- `FilePool::GetChunk(needClean, &chunkid, &isCleaned)` (file_pool.cpp
lines 548-597), transliterated.  `cleanRes` is the integer that the call
`CleanChunk(chunkid, onlyMarked = true)` would return in the one branch
that performs it (a dirty chunk popped under `needClean`).  If `needClean`
is false the tail of `dirtyChunks_` is preferred, falling back to
`cleanChunks_`; if `needClean` is true the tail of `cleanChunks_` is
preferred, falling back to `dirtyChunks_` plus the zero-range clean.  The
popped id is also recorded in the ghost `handedOut` list. -/
def GetChunk (needClean : Bool) (cleanRes : Int) (s : FilePool) : GetChunkResult :=
  if needClean = false then
    match s.dirtyChunks.getLast? with
    | some id =>
        let s1 := popDirty s
        ⟨0, id, false, false, { s1 with handedOut := s1.handedOut ++ [id] }⟩
    | none =>
      match s.cleanChunks.getLast? with
      | some id =>
          let s1 := popClean s
          ⟨0, id, true, false, { s1 with handedOut := s1.handedOut ++ [id] }⟩
      | none => ⟨-1, 0, false, false, s⟩
  else
    match s.cleanChunks.getLast? with
    | some id =>
        let s1 := popClean s
        ⟨0, id, true, false, { s1 with handedOut := s1.handedOut ++ [id] }⟩
    | none =>
      match s.dirtyChunks.getLast? with
      | some id =>
          let s1 := popDirty s
          let s2 := { s1 with handedOut := s1.handedOut ++ [id] }
          { ret := if cleanRes < 0 then cleanRes else 0
            chunkid := id
            isCleaned := if cleanRes < 0 then false else true
            cleanCalled := true
            state := s2 }
      | none => ⟨-1, 0, false, false, s⟩

/-- The state effect of `FilePool::CleaningChunk` (lines 354-392):
`popBack` the tail of `dirtyChunks_` (returning the sentinel 0 and leaving
the state alone when the vector is empty); if the popped id is 0, stop; on
`CleanChunk(id, false) < 0` push the id back onto `dirtyChunks_`,
otherwise promote it onto `cleanChunks_`.  `cleanRes` is the result of
that `CleanChunk` call. -/
def CleaningChunk (cleanRes : Int) (s : FilePool) : FilePool :=
  match s.dirtyChunks.getLast? with
  | none => s
  | some id =>
    let s1 := popDirty s
    if id = 0 then s1
    else if cleanRes < 0 then pushDirty id s1
    else pushClean id s1

/-- The critical section of `FilePool::FormatTask` (lines 486-493) for the
claimed index `chunkIndex = idx`: push `offset + idx` onto `cleanChunks_`
and bump `cleanChunksLeft`, `preallocatedChunksLeft`, `chunkNum` and
`allocateChunkNum`.  The push only happens when the format worker has
started (so `formatOffset` is set) and `idx < preAllocateNum` (the guard
at lines 470-474); otherwise the state is unchanged. -/
def formatPush (idx : Nat) (s : FilePool) : FilePool :=
  if s.formatStarted = true ∧ idx < s.formatStat.preAllocateNum then
    { s with
      cleanChunks := s.cleanChunks ++ [s.formatOffset + idx]
      currentState := { s.currentState with
        cleanChunksLeft := s.currentState.cleanChunksLeft + 1
        preallocatedChunksLeft := s.currentState.preallocatedChunksLeft + 1
        chunkNum := s.currentState.chunkNum + 1 }
      formatStat := { s.formatStat with
        allocateChunkNum := s.formatStat.allocateChunkNum + 1 } }
  else s

/-- The prologue of `FilePool::FormatWorker` (lines 499-503):
`offset = currentmaxfilenum_.fetch_add(preAllocateNum)`.  The worker is
spawned once per `Initialize`, so the fetch happens at most once. -/
def formatStart (s : FilePool) : FilePool :=
  if s.formatStarted = true then s
  else
    { s with
      formatOffset := s.currentmaxfilenum
      currentmaxfilenum := s.currentmaxfilenum + s.formatStat.preAllocateNum
      formatStarted := true }

/-- The state effect of the success path of `FilePool::RecycleFile`
(lines 777-799): `currentmaxfilenum_.fetch_add(1)`, take the new value as
`newfilenum`, and after the rename push it onto `dirtyChunks_` and bump
`dirtyChunksLeft` and `preallocatedChunksLeft`. -/
def recyclePush (s : FilePool) : FilePool :=
  let s1 := { s with currentmaxfilenum := s.currentmaxfilenum + 1 }
  pushDirty s1.currentmaxfilenum s1

/-- One mutating operation on the in-memory pool state, with the results
of the external file-system calls it depends on supplied as data. -/
inductive PoolOp where
  | formatStart
  | formatPush (idx : Nat)
  | cleaningChunk (cleanRes : Int)
  | getChunkPop (needClean : Bool) (cleanRes : Int)
  | recycleFilePush
deriving Repr, DecidableEq

/-- Apply one operation to the pool state. -/
def step (s : FilePool) : PoolOp → FilePool
  | .formatStart => formatStart s
  | .formatPush idx => formatPush idx s
  | .cleaningChunk cleanRes => CleaningChunk cleanRes s
  | .getChunkPop needClean cleanRes => (GetChunk needClean cleanRes s).state
  | .recycleFilePush => recyclePush s

/-- The per-entry body of the scan loop of `FilePool::ScanInternal`
(lines 835-884).  An entry is the parsed decimal file number together with
the `isCleaned` flag (whether the name carried the `.clean` suffix); the
accumulator is `(dirtyChunks, cleanChunks, maxnum)`.  A file number of 0
is skipped. -/
def scanEntry (acc : List Nat × List Nat × Nat) (e : Nat × Bool) :
    List Nat × List Nat × Nat :=
  let filenum := e.1
  if filenum ≠ 0 then
    let dirty := if e.2 then acc.1 else acc.1 ++ [filenum]
    let clean := if e.2 then acc.2.1 ++ [filenum] else acc.2.1
    let maxnum := if filenum > acc.2.2 then filenum else acc.2.2
    (dirty, clean, maxnum)
  else acc

/-- The state produced by `FilePool::ScanInternal` (lines 812-899) from a
validated directory listing: fold the entries, store
`currentmaxfilenum_ = maxnum + 1`, set `chunkNum` to the listing size plus
the `CountAllocatedNum` results of the copyset and recycle directories
(`extraChunkNum`), and seed the three `...Left` counters from the list
lengths.  `sizes` packs the `(chunkSize, metaPageSize, blockSize)` fields
and `preAlloc` the `preAllocateNum` recorded later by `PrepareFormat`. -/
def ScanInternal (entries : List (Nat × Bool)) (extraChunkNum : Nat)
    (sizes : Nat × Nat × Nat) (preAlloc : Nat) : FilePool :=
  let scanned := entries.foldl scanEntry ([], [], 0)
  { dirtyChunks := scanned.1
    cleanChunks := scanned.2.1
    currentmaxfilenum := scanned.2.2 + 1
    currentState :=
      { chunkSize := sizes.1
        metaPageSize := sizes.2.1
        blockSize := sizes.2.2
        chunkNum := entries.length + extraChunkNum
        dirtyChunksLeft := scanned.1.length
        cleanChunksLeft := scanned.2.1.length
        preallocatedChunksLeft := scanned.1.length + scanned.2.1.length }
    formatStat := { preAllocateNum := preAlloc, allocateChunkNum := 0, isWrong := false }
    formatOffset := 0
    formatStarted := false
    handedOut := [] }

/-- A pool state reached from a scan by a sequence of operations. -/
def runPool (entries : List (Nat × Bool)) (extraChunkNum : Nat)
    (sizes : Nat × Nat × Nat) (preAlloc : Nat) (ops : List PoolOp) : FilePool :=
  ops.foldl step (ScanInternal entries extraChunkNum sizes preAlloc)

/-- Exit status of the zero-fill write loop of `FilePool::CleanChunk`:
either an early `return r` out of the enclosing function, or normal loop
completion. -/
inductive CleanLoopExit where
  | ret (r : Int)
  | done
deriving Repr, DecidableEq

/-- The write loop of `FilePool::CleanChunk` (lines 327-341).  Each
iteration issues a `Write` followed by an `Fsync`; `steps` lists their
results `(nbytes, fsyncRes)` in order.  A negative `nbytes` returns
`nbytes`; a successful write followed by a negative `Fsync` ALSO returns
`nbytes` (the source's `return nbytes;` at line 336 — not the fsync
error); otherwise `nwrite += nbytes` and the loop continues while
`nwrite < ntotal`.  `none` means the supplied script ended before the loop
did. -/
def cleanWriteLoop : List (Int × Int) → Nat → Nat → Option CleanLoopExit
  | steps, nwrite, ntotal =>
    if nwrite < ntotal then
      match steps with
      | [] => none
      | (nbytes, fsyncRes) :: rest =>
        if nbytes < 0 then some (.ret nbytes)
        else if fsyncRes < 0 then some (.ret nbytes)
        else cleanWriteLoop rest (nwrite + nbytes.toNat) ntotal
    else some .done

/-- File-system results consumed by one `FilePool::CleanChunk` call:
the `Open` result, the `Fallocate(FALLOC_FL_ZERO_RANGE)` result, the
`(Write, Fsync)` results of the successive loop iterations, and the
`Rename(path, path + ".clean")` result. -/
structure CleanEnv where
  openRes : Int
  fallocRes : Int
  writes : List (Int × Int)
  renameRes : Int
deriving Repr, DecidableEq

/-- `FilePool::CleanChunk(chunkid, onlyMarked)` (lines 301-352),
transliterated over a `CleanEnv`; `chunklen = fileSize + metaPageSize`.
`onlyMarked = true` runs the single zero-range `Fallocate`;
`onlyMarked = false` runs the write loop.  Either path then renames the
file to its `.clean` name and returns the rename result.  `none` means
the write script was too short to decide the call. -/
def CleanChunk (onlyMarked : Bool) (chunklen : Nat) (env : CleanEnv) : Option Int :=
  if env.openRes < 0 then some env.openRes
  else if onlyMarked then
    if env.fallocRes < 0 then some env.fallocRes
    else some env.renameRes
  else
    match cleanWriteLoop env.writes 0 chunklen with
    | none => none
    | some (.ret r) => some r
    | some .done => some env.renameRes

/-- File-system results consumed by one `FilePool::RecycleFile` call: the
`Open` result, the `Fstat` result and the `st_size` it reports, the
`Rename` result and the `Delete` result. -/
structure RecycleEnv where
  openRes : Int
  fstatRes : Int
  stSize : Int
  renameRes : Int
  deleteRes : Int
deriving Repr, DecidableEq

/-- Result of `FilePool::RecycleFile`: the returned `int`, the new pool
state, and the file number under which the chunk was renamed into the
pool directory (`none` when no rename into the pool happened). -/
structure RecycleResult where
  ret : Int
  state : FilePool
  renamedTo : Option Nat
deriving Repr, DecidableEq

/-- `FilePool::RecycleFile(chunkpath)` (lines 739-802), transliterated.
With `getFileFromPool = false` the file is deleted.  Otherwise: an `Open`
or `Fstat` failure, or a size different from `fileSize + metaPageSize`,
falls back to `Delete`; else `currentmaxfilenum_` is incremented, the new
value `newfilenum` names the rename target `dir/<newfilenum>`, a rename
failure returns -1 (leaving the counter bumped), and on success
`newfilenum` is pushed onto `dirtyChunks_` with both counters bumped. -/
def RecycleFile (getFileFromPool : Bool) (fileSize metaPageSize : Nat)
    (env : RecycleEnv) (s : FilePool) : RecycleResult :=
  if getFileFromPool = false then
    if env.deleteRes < 0 then ⟨-1, s, none⟩ else ⟨0, s, none⟩
  else
    let chunklen : Int := (fileSize : Int) + (metaPageSize : Int)
    if env.openRes < 0 then ⟨env.deleteRes, s, none⟩
    else if env.fstatRes ≠ 0 then ⟨env.deleteRes, s, none⟩
    else if env.stSize ≠ chunklen then ⟨env.deleteRes, s, none⟩
    else
      let s1 := { s with currentmaxfilenum := s.currentmaxfilenum + 1 }
      let newfilenum := s1.currentmaxfilenum
      if env.renameRes < 0 then ⟨-1, s1, none⟩
      else ⟨0, pushDirty newfilenum s1, some newfilenum⟩

/-- File-system trace events of a `GetFile` attempt: the `WriteMetaPage`
call, the `RENAME_NOREPLACE` rename, the `AllocateChunk` of the
pool-disabled branch, and a `Delete` (which `GetFile` never issues). -/
inductive FsOp where
  | writeMeta
  | renameNoReplace
  | allocate
  | deleteOp
deriving Repr, DecidableEq

/-- External results consumed by one iteration of the `GetFile` retry
loop: the result `CleanChunk(id, true)` would return inside `GetChunk`,
the `AllocateChunk` result of the pool-disabled branch, the
`WriteMetaPage` result and the rename result. -/
structure Attempt where
  cleanChunkRes : Int
  allocateRes : Int
  writeMetaRes : Int
  renameRes : Int
deriving Repr, DecidableEq

/-- Result of `FilePool::GetFile`: the returned `int`, the final pool
state, the number of loop iterations entered, and the trace of
file-system operations issued. -/
structure GetFileResult where
  ret : Int
  state : FilePool
  attempts : Nat
  trace : List FsOp
deriving Repr, DecidableEq

/-- The `errno` value `EEXIST`. -/
def EEXIST : Int := 17

/-- The retry loop of `FilePool::GetFile` (lines 599-660), transliterated.
`fuel = retryTimes - retry` counts the remaining iterations, `script k`
supplies the external results of attempt `k`, and `ret` carries the value
of the C++ `ret` variable (initialised to -1 before the loop).  Pool
enabled: a negative `GetChunk` breaks immediately with its result.  After
a successful pop, a non-negative `WriteMetaPage` leads to the
`RENAME_NOREPLACE` rename: `-EEXIST` breaks immediately, any other
negative result falls through to `retry++`, and a non-negative result
breaks with success.  A negative `WriteMetaPage` falls through to
`retry++`.  Pool disabled: the file is allocated at
`dir/<currentmaxfilenum_.fetch_add(1)>`; an allocation failure retries. -/
def getFileLoop (getFileFromPool needClean : Bool) (script : Nat → Attempt) :
    Nat → Nat → Int → FilePool → Nat → List FsOp → GetFileResult
  | _, 0, ret, s, attempts, trace => ⟨ret, s, attempts, trace⟩
  | k, fuel + 1, _ret, s, attempts, trace =>
    let a := script k
    if getFileFromPool then
      let g := GetChunk needClean a.cleanChunkRes s
      if g.ret < 0 then ⟨g.ret, g.state, attempts + 1, trace⟩
      else
        let trace1 := trace ++ [FsOp.writeMeta]
        if a.writeMetaRes ≥ 0 then
          let trace2 := trace1 ++ [FsOp.renameNoReplace]
          if a.renameRes = -EEXIST then ⟨-EEXIST, g.state, attempts + 1, trace2⟩
          else if a.renameRes < 0 then
            getFileLoop getFileFromPool needClean script (k + 1) fuel
              a.renameRes g.state (attempts + 1) trace2
          else ⟨a.renameRes, g.state, attempts + 1, trace2⟩
        else
          getFileLoop getFileFromPool needClean script (k + 1) fuel
            a.writeMetaRes g.state (attempts + 1) trace1
    else
      let s1 := { s with currentmaxfilenum := s.currentmaxfilenum + 1 }
      let trace1 := trace ++ [FsOp.allocate]
      if a.allocateRes < 0 then
        getFileLoop getFileFromPool needClean script (k + 1) fuel
          a.allocateRes s1 (attempts + 1) trace1
      else
        let trace2 := trace1 ++ [FsOp.writeMeta]
        if a.writeMetaRes ≥ 0 then
          let trace3 := trace2 ++ [FsOp.renameNoReplace]
          if a.renameRes = -EEXIST then ⟨-EEXIST, s1, attempts + 1, trace3⟩
          else if a.renameRes < 0 then
            getFileLoop getFileFromPool needClean script (k + 1) fuel
              a.renameRes s1 (attempts + 1) trace3
          else ⟨a.renameRes, s1, attempts + 1, trace3⟩
        else
          getFileLoop getFileFromPool needClean script (k + 1) fuel
            a.writeMetaRes s1 (attempts + 1) trace2

/-- `FilePool::GetFile(targetpath, metapage, needClean)`: run the retry
loop with `retry = 0` and `ret = -1`. -/
def GetFile (getFileFromPool needClean : Bool) (retryTimes : Nat)
    (script : Nat → Attempt) (s : FilePool) : GetFileResult :=
  getFileLoop getFileFromPool needClean script 0 retryTimes (-1) s 0 []

/-- Modulus of the `uint64_t` arithmetic in `PrepareFormat`. -/
def U64 : Nat := 2 ^ 64

/-- `FilePool::PrepareFormat` (lines 401-438), transliterated.  Inputs are
the configured `filePoolSize`, the `allocatedByPercent`/`allocatedPercent`
options, `fileSize` and `metaFileSize`, the scanned `chunkNum`, and the
`Statfs` results `total`/`available`.  `needSpace` is the `uint64_t`
difference `filePoolSize - chunkNum * bytesPerPage` (computed, as in the
source, before the early-exit test).  Returns the recorded
`preAllocateNum` on success and `none` when the free space is too small
(`Initialize` then fails). -/
def PrepareFormat (allocatedByPercent : Bool) (allocatedPercent : Nat)
    (filePoolSize fileSize metaFileSize chunkNum total available : Nat) :
    Option Nat :=
  let fps := if allocatedByPercent then total * allocatedPercent / 100 else filePoolSize
  let bytesPerPage := fileSize + metaFileSize
  let needSpace := (fps % U64 + U64 - chunkNum * bytesPerPage % U64) % U64
  if fps / bytesPerPage < chunkNum then some 0
  else if available < needSpace then none
  else some (needSpace / bytesPerPage)

/-- UTF-8 encoding of one character as byte values. -/
def charBytes (c : Char) : List Nat :=
  let n := c.toNat
  if n < 0x80 then [n]
  else if n < 0x800 then [0xC0 + n / 64, 0x80 + n % 64]
  else if n < 0x10000 then
    [0xE0 + n / 4096, 0x80 + n / 64 % 64, 0x80 + n % 64]
  else
    [0xF0 + n / 262144, 0x80 + n / 4096 % 64, 0x80 + n / 64 % 64, 0x80 + n % 64]

/-- UTF-8 bytes of a string (the raw bytes of a `std::string`). -/
def utf8Bytes (s : String) : List Nat :=
  s.data.foldr (fun c acc => charBytes c ++ acc) []

/-- Little-endian bytes of a `uint32_t` value, as `memcpy` of the raw
field produces on the target platform. -/
def le32 (n : Nat) : List Nat :=
  [n % 256, n / 256 % 256, n / 65536 % 256, n / 16777216 % 256]

/-- Bitwise exclusive-or of the low `fuel` bits of two naturals, written
with arithmetic recursion so that it evaluates cheaply inside the kernel. -/
def xorBits : Nat → Nat → Nat → Nat
  | 0, _, _ => 0
  | fuel + 1, a, b => (a + b) % 2 + 2 * xorBits fuel (a / 2) (b / 2)

/-- Exclusive-or on 32-bit values. -/
def xor32 (a b : Nat) : Nat := xorBits 32 a b

/-- One bit step of the reflected CRC-32 computation. -/
def crc32Bit (c : Nat) : Nat :=
  if c % 2 = 1 then xor32 (c / 2) 0xEDB88320 else c / 2

/-- Fold one byte into a running CRC-32 value. -/
def crc32Byte (c b : Nat) : Nat :=
  Nat.repeat crc32Bit 8 (xor32 c (b % 256))

/-- Modelled from the spec: `curve::common::CRC32` (src/common/crc32.h is
not among the provided sources; the spec only says "Apply CRC32").
Standard reflected CRC-32 over a byte sequence. -/
def CRC32 (data : List Nat) : Nat :=
  xor32 (data.foldl crc32Byte 0xFFFFFFFF) 0xFFFFFFFF

/-- Modelled from the spec: the "pool magic constant bytes"
(`curve::common::kFilePoolMagic`, declared in src/common/curve_define.h,
which is not among the provided sources).  It is a `char` array whose
`sizeof` — and hence the trailing NUL — is included by the `memcpy` in
`FilePoolMeta::Crc32`.  The concrete value is irrelevant to the claims. -/
def kFilePoolMagic : List Nat := utf8Bytes "MAGIC" ++ [0]

/-- Modelled from the spec: `curve::common::kDefaultBlockSize`, the
default substituted when a legacy manifest lacks `blockSize` (the spec
calls the alignment unit's default `kDefaultBlockSize`; 4096 is the
alignment unit used throughout the pool). -/
def kDefaultBlockSize : Nat := 4096

/-- The persisted pool manifest value, mirroring the C++ `FilePoolMeta`
struct: `chunkSize`, `metaPageSize`, `blockSize` (with `hasBlockSize`
telling whether it was present) and `filePoolPath`. -/
structure FilePoolMeta where
  chunkSize : Nat
  metaPageSize : Nat
  blockSize : Nat
  hasBlockSize : Bool
  filePoolPath : String
deriving Repr, DecidableEq

/-- `FilePoolMeta::Crc32` (lines 943-970): CRC over the concatenation of
the magic bytes, the raw little-endian `uint32_t` images of `chunkSize`
and `metaPageSize`, the raw `blockSize` only if `hasBlockSize`, and the
bytes of `filePoolPath` without a terminator. -/
def FilePoolMeta.Crc32 (m : FilePoolMeta) : Nat :=
  CRC32 (kFilePoolMagic ++ le32 m.chunkSize ++ le32 m.metaPageSize ++
    (if m.hasBlockSize then le32 m.blockSize else []) ++ utf8Bytes m.filePoolPath)

/-- The JSON document persisted in the 4096-byte manifest, abstracted to
the keys it carries (`jsoncpp` serialisation, the NUL padding of the
4096-byte buffer and the synchronous-write file I/O are external to the
pool's logic): `chunkSize`, `metaPageSize`, the optional `blockSize`,
`chunkfilepool_path` and `crc`. -/
structure ManifestDoc where
  chunkSize : Option Nat
  metaPageSize : Option Nat
  blockSize : Option Nat
  filePoolPath : Option String
  crc : Option Nat
deriving Repr, DecidableEq

/-- `FilePoolHelper::PersistEnCodeMetaInfo` (lines 79-117): build the JSON
object with `chunkSize`, `metaPageSize`, `blockSize` only when
`hasBlockSize`, the pool path, and `crc = meta.Crc32()`. -/
def PersistEnCodeMetaInfo (meta : FilePoolMeta) : ManifestDoc :=
  { chunkSize := some meta.chunkSize
    metaPageSize := some meta.metaPageSize
    blockSize := if meta.hasBlockSize then some meta.blockSize else none
    filePoolPath := some meta.filePoolPath
    crc := some meta.Crc32 }

/-- `FilePoolHelper::DecodeMetaInfoFromMetaFile` (lines 119-213): require
`chunkSize`, `metaPageSize`, `chunkfilepool_path` and `crc`; a missing
`blockSize` sets `hasBlockSize = false` and substitutes
`kDefaultBlockSize`; finally the CRC is recomputed over the decoded meta
and compared with the stored value, `none` (the -1 return) on mismatch or
on any missing required key. -/
def DecodeMetaInfoFromMetaFile (doc : ManifestDoc) : Option FilePoolMeta :=
  match doc.chunkSize, doc.metaPageSize, doc.filePoolPath, doc.crc with
  | some cs, some mps, some path, some crcvalue =>
    let hb := doc.blockSize.isSome
    let bs := match doc.blockSize with
      | some b => b
      | none => kDefaultBlockSize
    let meta : FilePoolMeta :=
      { chunkSize := cs, metaPageSize := mps, blockSize := bs
        hasBlockSize := hb, filePoolPath := path }
    if crcvalue ≠ meta.Crc32 then none else some meta
  | _, _, _, _ => none

/-- The pool-state invariant: the three `...Left` counters agree with the
list lengths, every file number in either list, and every number handed
out, is non-zero and at most `currentmaxfilenum_`, the counter is at least
1, and once the format worker has fetched its offset the whole format
range lies at or below the counter. -/
def PoolInv (s : FilePool) : Prop :=
  s.currentState.dirtyChunksLeft = s.dirtyChunks.length ∧
  s.currentState.cleanChunksLeft = s.cleanChunks.length ∧
  s.currentState.preallocatedChunksLeft =
    s.dirtyChunks.length + s.cleanChunks.length ∧
  (∀ n ∈ s.dirtyChunks, n ≠ 0 ∧ n ≤ s.currentmaxfilenum) ∧
  (∀ n ∈ s.cleanChunks, n ≠ 0 ∧ n ≤ s.currentmaxfilenum) ∧
  (∀ n ∈ s.handedOut, n ≠ 0 ∧ n ≤ s.currentmaxfilenum) ∧
  1 ≤ s.currentmaxfilenum ∧
  (s.formatStarted = true →
    1 ≤ s.formatOffset ∧
    s.formatOffset + s.formatStat.preAllocateNum ≤ s.currentmaxfilenum)

lemma scanEntry_bound (acc : List Nat × List Nat × Nat) (e : Nat × Bool)
    (h1 : ∀ n ∈ acc.1, n ≠ 0 ∧ n ≤ acc.2.2)
    (h2 : ∀ n ∈ acc.2.1, n ≠ 0 ∧ n ≤ acc.2.2) :
    (∀ n ∈ (scanEntry acc e).1, n ≠ 0 ∧ n ≤ (scanEntry acc e).2.2) ∧
      (∀ n ∈ (scanEntry acc e).2.1, n ≠ 0 ∧ n ≤ (scanEntry acc e).2.2) := by
  obtain ⟨num, flag⟩ := e
  by_cases hnum : num = 0
  · simpa [scanEntry, hnum] using ⟨h1, h2⟩
  · cases flag <;>
      simp only [scanEntry, hnum, ne_eq, not_false_eq_true, if_true, if_pos,
        ite_true, ite_false, Bool.false_eq_true, List.mem_append,
        List.mem_singleton] <;>
      constructor <;> intro n hn
    · rcases hn with hn | rfl
      · rcases h1 n hn with ⟨ha, hb⟩
        refine ⟨ha, ?_⟩
        split <;> omega
      · refine ⟨hnum, ?_⟩
        split <;> omega
    · rcases h2 n hn with ⟨ha, hb⟩
      refine ⟨ha, ?_⟩
      split <;> omega
    · rcases h1 n hn with ⟨ha, hb⟩
      refine ⟨ha, ?_⟩
      split <;> omega
    · rcases hn with hn | rfl
      · rcases h2 n hn with ⟨ha, hb⟩
        refine ⟨ha, ?_⟩
        split <;> omega
      · refine ⟨hnum, ?_⟩
        split <;> omega

lemma scan_foldl_bound (entries : List (Nat × Bool)) :
    ∀ acc : List Nat × List Nat × Nat,
      (∀ n ∈ acc.1, n ≠ 0 ∧ n ≤ acc.2.2) →
      (∀ n ∈ acc.2.1, n ≠ 0 ∧ n ≤ acc.2.2) →
      (∀ n ∈ (entries.foldl scanEntry acc).1,
          n ≠ 0 ∧ n ≤ (entries.foldl scanEntry acc).2.2) ∧
        (∀ n ∈ (entries.foldl scanEntry acc).2.1,
          n ≠ 0 ∧ n ≤ (entries.foldl scanEntry acc).2.2) := by
  induction entries with
  | nil => intro acc h1 h2; exact ⟨h1, h2⟩
  | cons e rest ih =>
    intro acc h1 h2
    have h := scanEntry_bound acc e h1 h2
    exact ih (scanEntry acc e) h.1 h.2

/-- The scanned initial state satisfies the invariant. -/
lemma PoolInv_ScanInternal (entries : List (Nat × Bool)) (extraChunkNum : Nat)
    (sizes : Nat × Nat × Nat) (preAlloc : Nat) :
    PoolInv (ScanInternal entries extraChunkNum sizes preAlloc) := by
  have h := scan_foldl_bound entries ([], [], 0) (by simp) (by simp)
  refine ⟨rfl, rfl, rfl, ?_, ?_, by simp [ScanInternal], Nat.le_add_left 1 _, ?_⟩
  · intro n hn
    rcases h.1 n hn with ⟨ha, hb⟩
    exact ⟨ha, by simpa [ScanInternal] using Nat.le_succ_of_le hb⟩
  · intro n hn
    rcases h.2 n hn with ⟨ha, hb⟩
    exact ⟨ha, by simpa [ScanInternal] using Nat.le_succ_of_le hb⟩
  · intro hstart
    simp [ScanInternal] at hstart

lemma getLast?_facts {l : List Nat} {id : Nat} (hg : l.getLast? = some id) :
    l.dropLast ++ [id] = l ∧ l.length = l.dropLast.length + 1 ∧ id ∈ l ∧
      ∀ n ∈ l.dropLast, n ∈ l := by
  have heq := List.dropLast_append_getLast? id (Option.mem_def.mpr hg)
  refine ⟨heq, ?_, ?_, ?_⟩
  · conv_lhs => rw [← heq]
    simp
  · rw [← heq]
    exact List.mem_append_right _ (List.mem_singleton.mpr rfl)
  · intro n hn
    rw [← heq]
    exact List.mem_append_left _ hn


lemma PoolInv_popDirty {s : FilePool} {id : Nat}
    (hg : s.dirtyChunks.getLast? = some id) (h : PoolInv s) :
    PoolInv (popDirty s) := by
  obtain ⟨h1, h2, h3, h4, h5, h6, h7, h8⟩ := h
  obtain ⟨heq, hlen, hmem, hsub⟩ := getLast?_facts hg
  unfold popDirty PoolInv
  dsimp only
  refine ⟨by simp only [List.length_dropLast]; omega,
    h2, by simp only [List.length_dropLast]; omega, ?_, h5, h6, h7, h8⟩
  intro n hn
  exact h4 n (hsub n hn)

lemma PoolInv_popClean {s : FilePool} {id : Nat}
    (hg : s.cleanChunks.getLast? = some id) (h : PoolInv s) :
    PoolInv (popClean s) := by
  obtain ⟨h1, h2, h3, h4, h5, h6, h7, h8⟩ := h
  obtain ⟨heq, hlen, hmem, hsub⟩ := getLast?_facts hg
  unfold popClean PoolInv
  dsimp only
  refine ⟨h1, by simp only [List.length_dropLast]; omega,
    by simp only [List.length_dropLast]; omega, h4, ?_, h6, h7, h8⟩
  intro n hn
  exact h5 n (hsub n hn)

lemma PoolInv_handedOut {s : FilePool} {id : Nat} (h : PoolInv s)
    (hid : id ≠ 0 ∧ id ≤ s.currentmaxfilenum) :
    PoolInv { s with handedOut := s.handedOut ++ [id] } := by
  obtain ⟨h1, h2, h3, h4, h5, h6, h7, h8⟩ := h
  refine ⟨h1, h2, h3, h4, h5, ?_, h7, h8⟩
  intro n hn
  rcases List.mem_append.mp hn with hn | hn
  · exact h6 n hn
  · rcases List.mem_singleton.mp hn with rfl
    exact hid

lemma PoolInv_pushDirty {s : FilePool} {id : Nat} (h : PoolInv s)
    (hid : id ≠ 0 ∧ id ≤ s.currentmaxfilenum) :
    PoolInv (pushDirty id s) := by
  obtain ⟨h1, h2, h3, h4, h5, h6, h7, h8⟩ := h
  unfold pushDirty PoolInv
  dsimp only
  refine ⟨by simp only [List.length_append, List.length_singleton]; omega,
    h2, by simp only [List.length_append, List.length_singleton]; omega,
    ?_, h5, h6, h7, h8⟩
  intro n hn
  rcases List.mem_append.mp hn with hn | hn
  · exact h4 n hn
  · rcases List.mem_singleton.mp hn with rfl
    exact hid

lemma PoolInv_pushClean {s : FilePool} {id : Nat} (h : PoolInv s)
    (hid : id ≠ 0 ∧ id ≤ s.currentmaxfilenum) :
    PoolInv (pushClean id s) := by
  obtain ⟨h1, h2, h3, h4, h5, h6, h7, h8⟩ := h
  unfold pushClean PoolInv
  dsimp only
  refine ⟨h1, by simp only [List.length_append, List.length_singleton]; omega,
    by simp only [List.length_append, List.length_singleton]; omega,
    h4, ?_, h6, h7, h8⟩
  intro n hn
  rcases List.mem_append.mp hn with hn | hn
  · exact h5 n hn
  · rcases List.mem_singleton.mp hn with rfl
    exact hid

lemma PoolInv_GetChunk (needClean : Bool) (cleanRes : Int) {s : FilePool}
    (h : PoolInv s) : PoolInv (GetChunk needClean cleanRes s).state := by
  unfold GetChunk
  cases needClean
  · rw [if_pos rfl]
    rcases hgd : s.dirtyChunks.getLast? with _ | id
    · rcases hgc : s.cleanChunks.getLast? with _ | id
      · exact h
      · exact PoolInv_handedOut (PoolInv_popClean hgc h)
          (h.2.2.2.2.1 id (getLast?_facts hgc).2.2.1)
    · exact PoolInv_handedOut (PoolInv_popDirty hgd h)
        (h.2.2.2.1 id (getLast?_facts hgd).2.2.1)
  · rw [if_neg (by decide)]
    rcases hgc : s.cleanChunks.getLast? with _ | id
    · rcases hgd : s.dirtyChunks.getLast? with _ | id
      · exact h
      · exact PoolInv_handedOut (PoolInv_popDirty hgd h)
          (h.2.2.2.1 id (getLast?_facts hgd).2.2.1)
    · exact PoolInv_handedOut (PoolInv_popClean hgc h)
        (h.2.2.2.2.1 id (getLast?_facts hgc).2.2.1)

lemma PoolInv_CleaningChunk (cleanRes : Int) {s : FilePool} (h : PoolInv s) :
    PoolInv (CleaningChunk cleanRes s) := by
  unfold CleaningChunk
  rcases hgd : s.dirtyChunks.getLast? with _ | id
  · exact h
  · have hid := h.2.2.2.1 id (getLast?_facts hgd).2.2.1
    have hid2 : id ≠ 0 ∧ id ≤ (popDirty s).currentmaxfilenum := hid
    have hpop := PoolInv_popDirty hgd h
    dsimp only
    split
    · exact hpop
    · split
      · exact PoolInv_pushDirty hpop hid2
      · exact PoolInv_pushClean hpop hid2

lemma PoolInv_formatPush (idx : Nat) {s : FilePool} (h : PoolInv s) :
    PoolInv (formatPush idx s) := by
  unfold formatPush
  split
  case isFalse => exact h
  case isTrue hc =>
    obtain ⟨hstart, hidx⟩ := hc
    obtain ⟨h1, h2, h3, h4, h5, h6, h7, h8⟩ := h
    obtain ⟨hoff, hrange⟩ := h8 hstart
    unfold PoolInv
    dsimp only
    refine ⟨h1, by simp only [List.length_append, List.length_singleton]; omega,
      by simp only [List.length_append, List.length_singleton]; omega,
      h4, ?_, h6, h7, ?_⟩
    · intro n hn
      rcases List.mem_append.mp hn with hn | hn
      · exact h5 n hn
      · rcases List.mem_singleton.mp hn with rfl
        exact ⟨by omega, by omega⟩
    · intro _
      exact ⟨hoff, hrange⟩

lemma PoolInv_formatStart {s : FilePool} (h : PoolInv s) :
    PoolInv (formatStart s) := by
  unfold formatStart
  split
  case isTrue => exact h
  case isFalse =>
    obtain ⟨h1, h2, h3, h4, h5, h6, h7, h8⟩ := h
    unfold PoolInv
    dsimp only
    refine ⟨h1, h2, h3, ?_, ?_, ?_, by omega, ?_⟩
    · intro n hn
      exact ⟨(h4 n hn).1, le_trans (h4 n hn).2 (Nat.le_add_right _ _)⟩
    · intro n hn
      exact ⟨(h5 n hn).1, le_trans (h5 n hn).2 (Nat.le_add_right _ _)⟩
    · intro n hn
      exact ⟨(h6 n hn).1, le_trans (h6 n hn).2 (Nat.le_add_right _ _)⟩
    · intro _
      exact ⟨h7, le_refl _⟩

lemma PoolInv_recyclePush {s : FilePool} (h : PoolInv s) :
    PoolInv (recyclePush s) := by
  obtain ⟨h1, h2, h3, h4, h5, h6, h7, h8⟩ := h
  have hstep : PoolInv { s with currentmaxfilenum := s.currentmaxfilenum + 1 } := by
    refine ⟨h1, h2, h3, ?_, ?_, ?_, by dsimp only; omega, ?_⟩
    · intro n hn
      exact ⟨(h4 n hn).1, le_trans (h4 n hn).2 (Nat.le_succ _)⟩
    · intro n hn
      exact ⟨(h5 n hn).1, le_trans (h5 n hn).2 (Nat.le_succ _)⟩
    · intro n hn
      exact ⟨(h6 n hn).1, le_trans (h6 n hn).2 (Nat.le_succ _)⟩
    · intro hstart
      obtain ⟨hoff, hrange⟩ := h8 hstart
      exact ⟨hoff, by dsimp only; omega⟩
  exact PoolInv_pushDirty hstep ⟨Nat.succ_ne_zero _, le_refl _⟩

lemma PoolInv_step (s : FilePool) (op : PoolOp) (h : PoolInv s) :
    PoolInv (step s op) := by
  cases op with
  | formatStart => exact PoolInv_formatStart h
  | formatPush idx => exact PoolInv_formatPush idx h
  | cleaningChunk cleanRes => exact PoolInv_CleaningChunk cleanRes h
  | getChunkPop needClean cleanRes => exact PoolInv_GetChunk needClean cleanRes h
  | recycleFilePush => exact PoolInv_recyclePush h

lemma PoolInv_foldl (ops : List PoolOp) :
    ∀ s : FilePool, PoolInv s → PoolInv (ops.foldl step s) := by
  induction ops with
  | nil => intro s h; exact h
  | cons op rest ih => intro s h; exact ih (step s op) (PoolInv_step s op h)

/-- Every state reachable from a scan satisfies the invariant. -/
lemma PoolInv_runPool (entries : List (Nat × Bool)) (extraChunkNum : Nat)
    (sizes : Nat × Nat × Nat) (preAlloc : Nat) (ops : List PoolOp) :
    PoolInv (runPool entries extraChunkNum sizes preAlloc ops) :=
  PoolInv_foldl ops _ (PoolInv_ScanInternal entries extraChunkNum sizes preAlloc)

/-- A small concrete pool (scan of a dirty file `5` and a clean file
`7.clean`) used to instantiate theorems with hypotheses. -/
def samplePool : FilePool := ScanInternal [(5, false), (7, true)] 0 (0, 0, 0) 0

lemma GetChunk_false_dirty {s : FilePool} (cleanRes : Int) {id : Nat}
    (hgd : s.dirtyChunks.getLast? = some id) :
    GetChunk false cleanRes s =
      ⟨0, id, false, false,
        { popDirty s with handedOut := (popDirty s).handedOut ++ [id] }⟩ := by
  unfold GetChunk
  rw [if_pos rfl, hgd]

lemma GetChunk_false_clean {s : FilePool} (cleanRes : Int) {id : Nat}
    (hgd : s.dirtyChunks.getLast? = none) (hgc : s.cleanChunks.getLast? = some id) :
    GetChunk false cleanRes s =
      ⟨0, id, true, false,
        { popClean s with handedOut := (popClean s).handedOut ++ [id] }⟩ := by
  unfold GetChunk
  rw [if_pos rfl, hgd, hgc]

lemma GetChunk_true_clean {s : FilePool} (cleanRes : Int) {id : Nat}
    (hgc : s.cleanChunks.getLast? = some id) :
    GetChunk true cleanRes s =
      ⟨0, id, true, false,
        { popClean s with handedOut := (popClean s).handedOut ++ [id] }⟩ := by
  unfold GetChunk
  rw [if_neg (by decide), hgc]

lemma GetChunk_true_dirty {s : FilePool} (cleanRes : Int) {id : Nat}
    (hgc : s.cleanChunks.getLast? = none) (hgd : s.dirtyChunks.getLast? = some id) :
    GetChunk true cleanRes s =
      { ret := if cleanRes < 0 then cleanRes else 0
        chunkid := id
        isCleaned := if cleanRes < 0 then false else true
        cleanCalled := true
        state := { popDirty s with handedOut := (popDirty s).handedOut ++ [id] } } := by
  unfold GetChunk
  rw [if_neg (by decide), hgc, hgd]

lemma GetChunk_both_empty {s : FilePool} (needClean : Bool) (cleanRes : Int)
    (hd : s.dirtyChunks = []) (hc : s.cleanChunks = []) :
    GetChunk needClean cleanRes s = ⟨-1, 0, false, false, s⟩ := by
  unfold GetChunk
  cases needClean <;> simp [hd, hc]

/-- C1: for every reachable in-memory state of the pool — after the scan
and any sequence of format pushes, clean promotions, `GetChunk` pops and
`RecycleFile` pushes — `preallocatedChunksLeft` equals
`dirtyChunksLeft + cleanChunksLeft`, which equals
`len(dirtyChunks) + len(cleanChunks)`. -/
theorem C1_preallocated_equals_list_lengths (entries : List (Nat × Bool))
    (extraChunkNum : Nat) (sizes : Nat × Nat × Nat) (preAlloc : Nat)
    (ops : List PoolOp) :
    (runPool entries extraChunkNum sizes preAlloc ops).currentState.preallocatedChunksLeft =
        (runPool entries extraChunkNum sizes preAlloc ops).currentState.dirtyChunksLeft +
          (runPool entries extraChunkNum sizes preAlloc ops).currentState.cleanChunksLeft ∧
      (runPool entries extraChunkNum sizes preAlloc ops).currentState.dirtyChunksLeft +
          (runPool entries extraChunkNum sizes preAlloc ops).currentState.cleanChunksLeft =
        (runPool entries extraChunkNum sizes preAlloc ops).dirtyChunks.length +
          (runPool entries extraChunkNum sizes preAlloc ops).cleanChunks.length := by
  obtain ⟨h1, h2, h3, -⟩ := PoolInv_runPool entries extraChunkNum sizes preAlloc ops
  exact ⟨by omega, by omega⟩

/-- C2, counterexample: the claimed strict inequality
`currentMaxFileNum > n` for every `n` in the lists (or handed out) fails:
after a single `RecycleFile` on a freshly scanned empty pool, the pushed
file number 2 equals `currentmaxfilenum_` (the source takes
`newfilenum = ++currentmaxfilenum_` and pushes that very value, lines
777-797). -/
theorem C2_strict_bound_counterexample :
    ¬ ∀ (entries : List (Nat × Bool)) (extraChunkNum : Nat)
        (sizes : Nat × Nat × Nat) (preAlloc : Nat) (ops : List PoolOp),
        (∀ n ∈ (runPool entries extraChunkNum sizes preAlloc ops).dirtyChunks,
          n < (runPool entries extraChunkNum sizes preAlloc ops).currentmaxfilenum) ∧
        (∀ n ∈ (runPool entries extraChunkNum sizes preAlloc ops).cleanChunks,
          n < (runPool entries extraChunkNum sizes preAlloc ops).currentmaxfilenum) ∧
        (∀ n ∈ (runPool entries extraChunkNum sizes preAlloc ops).handedOut,
          n < (runPool entries extraChunkNum sizes preAlloc ops).currentmaxfilenum) := by
  intro hall
  have h := (hall [] 0 (0, 0, 0) 0 [PoolOp.recycleFilePush]).1 2 (by decide)
  exact absurd h (by decide)

/-- C2, amended: `currentmaxfilenum_` is greater than OR EQUAL TO every
file number in `dirtyChunks_`, in `cleanChunks_`, and ever popped for
hand-out; equality is reached exactly by a `RecycleFile` push, whose
fresh number is the just-incremented counter itself. -/
theorem C2_counter_dominates_all_numbers (entries : List (Nat × Bool))
    (extraChunkNum : Nat) (sizes : Nat × Nat × Nat) (preAlloc : Nat)
    (ops : List PoolOp) :
    (∀ n ∈ (runPool entries extraChunkNum sizes preAlloc ops).dirtyChunks,
      n ≤ (runPool entries extraChunkNum sizes preAlloc ops).currentmaxfilenum) ∧
    (∀ n ∈ (runPool entries extraChunkNum sizes preAlloc ops).cleanChunks,
      n ≤ (runPool entries extraChunkNum sizes preAlloc ops).currentmaxfilenum) ∧
    (∀ n ∈ (runPool entries extraChunkNum sizes preAlloc ops).handedOut,
      n ≤ (runPool entries extraChunkNum sizes preAlloc ops).currentmaxfilenum) := by
  obtain ⟨-, -, -, h4, h5, h6, -, -⟩ :=
    PoolInv_runPool entries extraChunkNum sizes preAlloc ops
  exact ⟨fun n hn => (h4 n hn).2, fun n hn => (h5 n hn).2, fun n hn => (h6 n hn).2⟩

/-- Witness for the amended C2 bound at a concrete recycled state. -/
theorem C2_counter_dominates_all_numbers_witness :
    2 ∈ (runPool [] 0 (0, 0, 0) 0 [PoolOp.recycleFilePush]).dirtyChunks ∧
      2 ≤ (runPool [] 0 (0, 0, 0) 0 [PoolOp.recycleFilePush]).currentmaxfilenum :=
  ⟨by decide,
    (C2_counter_dominates_all_numbers [] 0 (0, 0, 0) 0 [PoolOp.recycleFilePush]).1
      2 (by decide)⟩

/-- C10: in every reachable pool state, file number 0 appears in neither
list, `currentmaxfilenum_` is at least 1, and hence the popped-value-0
sentinel of `CleaningChunk`'s `popBack` fires exactly when `dirtyChunks_`
is empty — it never discards a real chunk. -/
theorem C10_zero_is_reserved (entries : List (Nat × Bool)) (extraChunkNum : Nat)
    (sizes : Nat × Nat × Nat) (preAlloc : Nat) (ops : List PoolOp) :
    0 ∉ (runPool entries extraChunkNum sizes preAlloc ops).dirtyChunks ∧
      0 ∉ (runPool entries extraChunkNum sizes preAlloc ops).cleanChunks ∧
      1 ≤ (runPool entries extraChunkNum sizes preAlloc ops).currentmaxfilenum ∧
      ((runPool entries extraChunkNum sizes preAlloc ops).dirtyChunks.getLast?.getD 0 = 0 ↔
        (runPool entries extraChunkNum sizes preAlloc ops).dirtyChunks = []) := by
  obtain ⟨-, -, -, h4, h5, -, h7, -⟩ :=
    PoolInv_runPool entries extraChunkNum sizes preAlloc ops
  refine ⟨fun hmem => (h4 0 hmem).1 rfl, fun hmem => (h5 0 hmem).1 rfl, h7, ?_, ?_⟩
  · intro h0
    by_contra hne
    rw [List.getLast?_eq_getLast_of_ne_nil hne, Option.getD_some] at h0
    exact (h4 _ (List.getLast_mem hne)).1 h0
  · intro hnil
    rw [hnil]
    rfl

/-- Witness for C10's sentinel characterisation at a concrete state. -/
theorem C10_zero_is_reserved_witness :
    (runPool [] 0 (0, 0, 0) 0 []).dirtyChunks = [] :=
  (C10_zero_is_reserved [] 0 (0, 0, 0) 0 []).2.2.2.mp (by decide)

/-- C7: `GetChunk` takes the tail of `dirtyChunks_` when `needClean` is
false (falling back to the tail of `cleanChunks_`), and the tail of
`cleanChunks_` when `needClean` is true (falling back to the tail of
`dirtyChunks_`, in which case `CleanChunk(id, onlyMarked = true)` is
invoked and the chunk counts as cleaned exactly when that call returns
non-negatively). -/
theorem C7_GetChunk_selection (cleanRes : Int) (s : FilePool) :
    (s.dirtyChunks ≠ [] →
      (GetChunk false cleanRes s).ret = 0 ∧
      s.dirtyChunks.getLast? = some (GetChunk false cleanRes s).chunkid ∧
      (GetChunk false cleanRes s).isCleaned = false ∧
      (GetChunk false cleanRes s).cleanCalled = false) ∧
    (s.dirtyChunks = [] → s.cleanChunks ≠ [] →
      (GetChunk false cleanRes s).ret = 0 ∧
      s.cleanChunks.getLast? = some (GetChunk false cleanRes s).chunkid ∧
      (GetChunk false cleanRes s).isCleaned = true ∧
      (GetChunk false cleanRes s).cleanCalled = false) ∧
    (s.cleanChunks ≠ [] →
      (GetChunk true cleanRes s).ret = 0 ∧
      s.cleanChunks.getLast? = some (GetChunk true cleanRes s).chunkid ∧
      (GetChunk true cleanRes s).isCleaned = true ∧
      (GetChunk true cleanRes s).cleanCalled = false) ∧
    (s.cleanChunks = [] → s.dirtyChunks ≠ [] →
      s.dirtyChunks.getLast? = some (GetChunk true cleanRes s).chunkid ∧
      (GetChunk true cleanRes s).cleanCalled = true ∧
      ((GetChunk true cleanRes s).isCleaned = true ↔ 0 ≤ cleanRes) ∧
      ((GetChunk true cleanRes s).ret = 0 ↔ 0 ≤ cleanRes) ∧
      (¬ 0 ≤ cleanRes → (GetChunk true cleanRes s).ret = cleanRes)) := by
  refine ⟨?_, ?_, ?_, ?_⟩
  · intro hne
    rw [GetChunk_false_dirty cleanRes (List.getLast?_eq_getLast_of_ne_nil hne)]
    exact ⟨rfl, List.getLast?_eq_getLast_of_ne_nil hne, rfl, rfl⟩
  · intro hnil hne
    rw [GetChunk_false_clean cleanRes (by rw [hnil]; rfl)
      (List.getLast?_eq_getLast_of_ne_nil hne)]
    exact ⟨rfl, List.getLast?_eq_getLast_of_ne_nil hne, rfl, rfl⟩
  · intro hne
    rw [GetChunk_true_clean cleanRes (List.getLast?_eq_getLast_of_ne_nil hne)]
    exact ⟨rfl, List.getLast?_eq_getLast_of_ne_nil hne, rfl, rfl⟩
  · intro hnil hne
    rw [GetChunk_true_dirty cleanRes (by rw [hnil]; rfl)
      (List.getLast?_eq_getLast_of_ne_nil hne)]
    rcases lt_or_le cleanRes 0 with hc | hc
    · simp only [if_pos hc]
      exact ⟨List.getLast?_eq_getLast_of_ne_nil hne, trivial,
        ⟨fun h => absurd h (by decide), fun h => absurd h (by omega)⟩,
        ⟨fun h => by omega, fun h => by omega⟩, fun _ => trivial⟩
    · simp only [if_neg (not_lt.mpr hc)]
      exact ⟨List.getLast?_eq_getLast_of_ne_nil hne, trivial,
        ⟨fun _ => hc, fun _ => trivial⟩, ⟨fun _ => hc, fun _ => trivial⟩,
        fun h => absurd hc h⟩

/-- Witness for C7 at `samplePool` (dirty tail 5, clean tail 7). -/
theorem C7_GetChunk_selection_witness :
    samplePool.dirtyChunks ≠ [] ∧
      samplePool.dirtyChunks.getLast? = some (GetChunk false (-3) samplePool).chunkid :=
  ⟨by decide, ((C7_GetChunk_selection (-3) samplePool).1 (by decide)).2.1⟩

lemma getFileLoop_attempts_mono (p n : Bool) (script : Nat → Attempt) :
    ∀ (fuel k : Nat) (ret : Int) (s : FilePool) (attempts : Nat) (trace : List FsOp),
      attempts ≤ (getFileLoop p n script k fuel ret s attempts trace).attempts := by
  intro fuel
  induction fuel with
  | zero => intro k ret s attempts trace; exact le_refl _
  | succ fuel ih =>
    intro k ret s attempts trace
    unfold getFileLoop
    dsimp only
    split
    · split
      · exact Nat.le_succ _
      · split
        · split
          · exact Nat.le_succ _
          · split
            · exact le_trans (Nat.le_succ _) (ih _ _ _ _ _)
            · exact Nat.le_succ _
        · exact le_trans (Nat.le_succ _) (ih _ _ _ _ _)
    · split
      · exact le_trans (Nat.le_succ _) (ih _ _ _ _ _)
      · split
        · split
          · exact Nat.le_succ _
          · split
            · exact le_trans (Nat.le_succ _) (ih _ _ _ _ _)
            · exact Nat.le_succ _
        · exact le_trans (Nat.le_succ _) (ih _ _ _ _ _)

lemma getFileLoop_attempts_succ (p n : Bool) (script : Nat → Attempt)
    (fuel k : Nat) (ret : Int) (s : FilePool) (attempts : Nat) (trace : List FsOp) :
    attempts + 1 ≤ (getFileLoop p n script k (fuel + 1) ret s attempts trace).attempts := by
  unfold getFileLoop
  dsimp only
  split
  · split
    · exact le_refl _
    · split
      · split
        · exact le_refl _
        · split
          · exact getFileLoop_attempts_mono p n script _ _ _ _ _ _
          · exact le_refl _
      · exact getFileLoop_attempts_mono p n script _ _ _ _ _ _
  · split
    · exact getFileLoop_attempts_mono p n script _ _ _ _ _ _
    · split
      · split
        · exact le_refl _
        · split
          · exact getFileLoop_attempts_mono p n script _ _ _ _ _ _
          · exact le_refl _
      · exact getFileLoop_attempts_mono p n script _ _ _ _ _ _

/-- C4: when the `RENAME_NOREPLACE` rename of a `GetFile` attempt fails
with `-EEXIST`, the call breaks out of the retry loop at once (one
attempt regardless of the remaining budget) and returns `-EEXIST`; the
final pool state is exactly the post-`GetChunk` state — the prepared
source file's number is not reinserted into either list — and the trace
holds no `Delete`.  Any other negative rename result instead falls
through to `retry++` and a further attempt. -/
theorem C4_GetFile_eexist_no_retry (needClean : Bool) (script : Nat → Attempt)
    (s : FilePool) (hg : (GetChunk needClean (script 0).cleanChunkRes s).ret = 0)
    (hw : 0 ≤ (script 0).writeMetaRes) :
    ((script 0).renameRes = -EEXIST →
      ∀ fuel : Nat,
        GetFile true needClean (fuel + 1) script s =
          ⟨-EEXIST, (GetChunk needClean (script 0).cleanChunkRes s).state, 1,
            [FsOp.writeMeta, FsOp.renameNoReplace]⟩) ∧
    ((script 0).renameRes < 0 → (script 0).renameRes ≠ -EEXIST →
      ∀ fuel : Nat, 2 ≤ (GetFile true needClean (fuel + 2) script s).attempts) := by
  have hnotlt : ¬ (GetChunk needClean (script 0).cleanChunkRes s).ret < 0 := by
    rw [hg]; decide
  constructor
  · intro hren fuel
    unfold GetFile getFileLoop
    dsimp only
    rw [if_pos rfl, if_neg hnotlt, if_pos hw, if_pos hren]
    rfl
  · intro hlt hne fuel
    unfold GetFile getFileLoop
    dsimp only
    rw [if_pos rfl, if_neg hnotlt, if_pos hw, if_neg hne, if_pos hlt]
    exact getFileLoop_attempts_succ true needClean script _ _ _ _ _ _

/-- Witness for C4 with a rename script returning `-EEXIST` on the first
attempt against `samplePool`. -/
theorem C4_GetFile_eexist_no_retry_witness :
    (GetChunk false (0 : Int) samplePool).ret = 0 ∧ (0 : Int) ≤ 0 ∧
      GetFile true false 5 (fun _ => ⟨0, 0, 0, -17⟩) samplePool =
        ⟨-EEXIST, (GetChunk false (0 : Int) samplePool).state, 1,
          [FsOp.writeMeta, FsOp.renameNoReplace]⟩ :=
  ⟨by decide, by decide,
    (C4_GetFile_eexist_no_retry false (fun _ => ⟨0, 0, 0, -17⟩) samplePool
      (by decide) (by decide)).1 (by decide) 4⟩

/-- C9, counterexample: with both lists empty and formatting complete on
a freshly scanned pool, `GetFile` with `retryTimes = 3` returns its error
after 1 attempt, not after exhausting the 3 retries: the source breaks
out of the loop as soon as `GetChunk` fails (lines 609-613). -/
theorem C9_exhausted_counterexample :
    (ScanInternal [] 0 (0, 0, 0) 0).formatStat.allocateChunkNum =
        (ScanInternal [] 0 (0, 0, 0) 0).formatStat.preAllocateNum ∧
      (ScanInternal [] 0 (0, 0, 0) 0).dirtyChunks = [] ∧
      (ScanInternal [] 0 (0, 0, 0) 0).cleanChunks = [] ∧
      (GetFile true false 3 (fun _ => ⟨0, 0, 0, 0⟩) (ScanInternal [] 0 (0, 0, 0) 0)).ret < 0 ∧
      (GetFile true false 3 (fun _ => ⟨0, 0, 0, 0⟩) (ScanInternal [] 0 (0, 0, 0) 0)).attempts = 1 ∧
      (GetFile true false 3 (fun _ => ⟨0, 0, 0, 0⟩) (ScanInternal [] 0 (0, 0, 0) 0)).attempts ≠ 3 := by
  decide

/-- C9, amended: on the pool-enabled path with formatting complete
(`allocateChunkNum == preAllocateNum`, so the condition-variable wait
does not block) and both free lists empty, `GetFile` returns -1
immediately on its first attempt — the `break` after a failed `GetChunk`
skips all remaining retries — leaving the state untouched. -/
theorem C9_exhausted_immediate (needClean : Bool) (script : Nat → Attempt)
    (s : FilePool) (retryTimes : Nat)
    (_hfmt : s.formatStat.allocateChunkNum = s.formatStat.preAllocateNum)
    (hd : s.dirtyChunks = []) (hc : s.cleanChunks = []) (hr : 1 ≤ retryTimes) :
    GetFile true needClean retryTimes script s = ⟨-1, s, 1, []⟩ := by
  obtain ⟨fuel, rfl⟩ : ∃ fuel, retryTimes = fuel + 1 := ⟨retryTimes - 1, by omega⟩
  unfold GetFile getFileLoop
  dsimp only
  rw [if_pos rfl, GetChunk_both_empty needClean (script 0).cleanChunkRes hd hc]
  have hlt : ((⟨-1, 0, false, false, s⟩ : GetChunkResult)).ret < 0 :=
    show (-1 : Int) < 0 by norm_num
  rw [if_pos hlt]

/-- Witness for the amended C9 at a freshly scanned empty pool. -/
theorem C9_exhausted_immediate_witness :
    (ScanInternal [] 0 (0, 0, 0) 0).dirtyChunks = [] ∧
      GetFile true false 3 (fun _ => ⟨0, 0, 0, 0⟩) (ScanInternal [] 0 (0, 0, 0) 0) =
        ⟨-1, ScanInternal [] 0 (0, 0, 0) 0, 1, []⟩ :=
  ⟨by decide,
    C9_exhausted_immediate false (fun _ => ⟨0, 0, 0, 0⟩) (ScanInternal [] 0 (0, 0, 0) 0)
      3 (by decide) (by decide) (by decide) (by decide)⟩

/-- C5: a pool-enabled `RecycleFile` whose file opens, fstats and has
size exactly `fileSize + metaPageSize`, and whose rename succeeds,
returns 0 after renaming the file to `dir/<newfilenum>` where
`newfilenum = currentmaxfilenum_ + 1` (the counter is incremented to that
value), pushing `newfilenum` onto `dirtyChunks_` and incrementing both
`dirtyChunksLeft` and `preallocatedChunksLeft` by exactly 1. -/
theorem C5_RecycleFile_success (fileSize metaPageSize : Nat) (env : RecycleEnv)
    (s : FilePool) (ho : 0 ≤ env.openRes) (hf : env.fstatRes = 0)
    (hs : env.stSize = (fileSize : Int) + (metaPageSize : Int))
    (hr : 0 ≤ env.renameRes) :
    RecycleFile true fileSize metaPageSize env s =
      ⟨0, pushDirty (s.currentmaxfilenum + 1)
            { s with currentmaxfilenum := s.currentmaxfilenum + 1 },
        some (s.currentmaxfilenum + 1)⟩ ∧
    (RecycleFile true fileSize metaPageSize env s).state.currentmaxfilenum =
      s.currentmaxfilenum + 1 ∧
    (RecycleFile true fileSize metaPageSize env s).state.dirtyChunks =
      s.dirtyChunks ++ [s.currentmaxfilenum + 1] ∧
    (RecycleFile true fileSize metaPageSize env s).state.currentState.dirtyChunksLeft =
      s.currentState.dirtyChunksLeft + 1 ∧
    (RecycleFile true fileSize metaPageSize env s).state.currentState.preallocatedChunksLeft =
      s.currentState.preallocatedChunksLeft + 1 ∧
    (RecycleFile true fileSize metaPageSize env s).renamedTo =
      some (s.currentmaxfilenum + 1) := by
  have hmain : RecycleFile true fileSize metaPageSize env s =
      ⟨0, pushDirty (s.currentmaxfilenum + 1)
            { s with currentmaxfilenum := s.currentmaxfilenum + 1 },
        some (s.currentmaxfilenum + 1)⟩ := by
    unfold RecycleFile
    rw [if_neg (by decide), if_neg (not_lt.mpr ho), if_neg (by simp [hf]),
      if_neg (by simp [hs]), if_neg (not_lt.mpr hr)]
  refine ⟨hmain, ?_, ?_, ?_, ?_, ?_⟩ <;> rw [hmain] <;> try rfl

/-- Witness for C5 at `samplePool` with a valid-size file. -/
theorem C5_RecycleFile_success_witness :
    ((4096 : Int) + 4096 = 8192) ∧
      RecycleFile true 4096 4096 ⟨0, 0, 8192, 0, 0⟩ samplePool =
        ⟨0, pushDirty (samplePool.currentmaxfilenum + 1)
              { samplePool with currentmaxfilenum := samplePool.currentmaxfilenum + 1 },
          some (samplePool.currentmaxfilenum + 1)⟩ :=
  ⟨by decide,
    (C5_RecycleFile_success 4096 4096 ⟨0, 0, 8192, 0, 0⟩ samplePool
      (by decide) (by decide) (by decide) (by decide)).1⟩

/-- C3, failing input: in `CleanChunk(chunkid, onlyMarked = false)` with
`chunklen = 8192`, let the first `Write` succeed with 8192 bytes and the
following `Fsync` fail.  The source's write loop then executes
`return nbytes;` (line 336) — the POSITIVE byte count of the successful
write, not a negative error — so `CleanChunk` reports success to
`CleaningChunk`, which promotes the never-synced, never-renamed chunk to
`cleanChunks_`.  This contradicts the claim (and the function's own
`LOG(ERROR) << "Fsync file failed"`): an fsync failure does not make
`CleanChunk` return a negative value. -/
theorem C3_CleanChunk_fsync_returns_nonneg :
    CleanChunk false 8192 ⟨0, 0, [(8192, -1)], 0⟩ = some 8192 ∧
      ¬ (8192 : Int) < 0 ∧
      CleaningChunk 8192 (ScanInternal [(5, false)] 0 (0, 0, 0) 0) =
        pushClean 5 (popDirty (ScanInternal [(5, false)] 0 (0, 0, 0) 0)) := by
  refine ⟨by decide, by decide, ?_⟩
  decide

/-- C8, counterexample: with `fileSize = 4096`, `metaFileSize = 4096`
(so `bytesPerPage = 8192`), `chunkNum = 1`, `filePoolSize = 8193` and 0
bytes available, `filePoolSize / bytesPerPage = 1 ≤ chunkNum`, so the
claim demands `preAllocateNum = 0` and success without a space check —
but the source's test is the STRICT `filePoolSize / bytesPerPage <
chunkNum` (line 418), so it falls through, computes `needSpace = 1`, and
fails startup because `available = 0 < 1`. -/
theorem C8_early_exit_counterexample :
    8193 / (4096 + 4096) ≤ 1 ∧
      PrepareFormat false 0 8193 4096 4096 1 0 0 = none := by
  constructor
  · decide
  · decide

/-- C8, amended: `PrepareFormat` skips the free-space check and records
`preAllocateNum = 0` only when `filePoolSize / bytesPerPage` is STRICTLY
below `chunkNum`; when `chunkNum ≤ filePoolSize / bytesPerPage` (equality
included) it computes `needSpace = filePoolSize - chunkNum * bytesPerPage`
and fails exactly when `available < needSpace`, otherwise recording
`preAllocateNum = needSpace / bytesPerPage` (which is 0 at equality). -/
theorem C8_PrepareFormat_thresholds (byPct : Bool)
    (pct fpsCfg fileSize metaFileSize chunkNum total available fps : Nat)
    (hfps : (if byPct then total * pct / 100 else fpsCfg) = fps)
    (_hbpp : 0 < fileSize + metaFileSize) (hU : fps < U64) :
    (fps / (fileSize + metaFileSize) < chunkNum →
      PrepareFormat byPct pct fpsCfg fileSize metaFileSize chunkNum total available =
        some 0) ∧
    (chunkNum ≤ fps / (fileSize + metaFileSize) →
      (available < fps - chunkNum * (fileSize + metaFileSize) →
        PrepareFormat byPct pct fpsCfg fileSize metaFileSize chunkNum total available =
          none) ∧
      (fps - chunkNum * (fileSize + metaFileSize) ≤ available →
        PrepareFormat byPct pct fpsCfg fileSize metaFileSize chunkNum total available =
          some ((fps - chunkNum * (fileSize + metaFileSize)) /
            (fileSize + metaFileSize)))) := by
  unfold PrepareFormat
  rw [hfps]
  constructor
  · intro hlt
    rw [if_pos hlt]
  · intro hge
    have hmul : chunkNum * (fileSize + metaFileSize) ≤ fps :=
      le_trans (Nat.mul_le_mul_right _ hge) (Nat.div_mul_le_self fps _)
    have hns : (fps % U64 + U64 - chunkNum * (fileSize + metaFileSize) % U64) % U64 =
        fps - chunkNum * (fileSize + metaFileSize) := by
      have hN : U64 = 18446744073709551616 := rfl
      have hfpsN : fps < 18446744073709551616 := hN ▸ hU
      rw [Nat.mod_eq_of_lt hU, Nat.mod_eq_of_lt (lt_of_le_of_lt hmul hU), hN]
      omega
    rw [if_neg (not_lt.mpr hge), hns]
    constructor
    · intro hav
      rw [if_pos hav]
    · intro hav
      rw [if_neg (not_lt.mpr hav)]

/-- Witness for the amended C8 at the boundary `filePoolSize /
bytesPerPage = chunkNum` with too little free space. -/
theorem C8_PrepareFormat_thresholds_witness :
    1 ≤ 8193 / (4096 + 4096) ∧ 0 < 8193 - 1 * (4096 + 4096) ∧
      PrepareFormat false 0 8193 4096 4096 1 0 0 = none :=
  ⟨by decide, by decide,
    ((C8_PrepareFormat_thresholds false 0 8193 4096 4096 1 0 0 8193 rfl
      (by decide) (by decide)).2 (by decide)).1 (by decide)⟩

/-- A manifest value whose `blockSize` was never persisted
(`hasBlockSize = false`) and differs from `kDefaultBlockSize`. -/
def metaNoBlock : FilePoolMeta := ⟨4096, 512, 512, false, "p"⟩

set_option maxRecDepth 20000 in
/-- C6, counterexample: the encode/decode round trip is NOT the identity
on every `FilePoolMeta`.  For `metaNoBlock` (`hasBlockSize = false`,
`blockSize = 512`) the encoder omits the `blockSize` key, so the decoder
substitutes `kDefaultBlockSize = 4096`: the decoded meta differs from the
original in its `blockSize` field even though `hasBlockSize` is
preserved (and the CRC, which skips `blockSize` when `hasBlockSize` is
false, still matches). -/
theorem C6_roundtrip_counterexample :
    DecodeMetaInfoFromMetaFile (PersistEnCodeMetaInfo metaNoBlock) ≠ some metaNoBlock ∧
      DecodeMetaInfoFromMetaFile (PersistEnCodeMetaInfo metaNoBlock) =
        some ⟨4096, 512, kDefaultBlockSize, false, "p"⟩ := by
  constructor
  · decide
  · decide

/-- C6, amended: the encode/decode round trip restores the original meta
(`chunkSize`, `metaPageSize`, `blockSize`, `hasBlockSize`,
`filePoolPath`) — and in particular the decoder's recomputed CRC matches
the stored `crc` field, since decoding only succeeds past that check —
provided `hasBlockSize` is true or `blockSize` already equals
`kDefaultBlockSize` (a missing key decodes to the default). -/
theorem C6_roundtrip (meta : FilePoolMeta)
    (h : meta.hasBlockSize = true ∨ meta.blockSize = kDefaultBlockSize) :
    DecodeMetaInfoFromMetaFile (PersistEnCodeMetaInfo meta) = some meta := by
  obtain ⟨cs, mps, bs, hb, path⟩ := meta
  cases hb
  · rcases h with h | h
    · simp at h
    · simp only at h
      subst h
      simp [PersistEnCodeMetaInfo, DecodeMetaInfoFromMetaFile]
  · simp [PersistEnCodeMetaInfo, DecodeMetaInfoFromMetaFile]

/-- Witness for C6's round trip on a meta carrying its `blockSize`. -/
theorem C6_roundtrip_witness :
    (⟨16777216, 4096, 4096, true, "pool"⟩ : FilePoolMeta).hasBlockSize = true ∧
      DecodeMetaInfoFromMetaFile
          (PersistEnCodeMetaInfo ⟨16777216, 4096, 4096, true, "pool"⟩) =
        some ⟨16777216, 4096, 4096, true, "pool"⟩ :=
  ⟨rfl, C6_roundtrip ⟨16777216, 4096, 4096, true, "pool"⟩ (Or.inl rfl)⟩
